import Mathlib

/-!
A verification development for the `jsonld-cli` command line tool
(`bin/jsonld.js`, version 2.0.1-0).  The CLI is glue code around the
external `jsonld` and `jsonld-request` libraries: it parses command line
options, builds an options object, dispatches to a library function and
prints the result.  We shallowly embed that glue here.

External collaborators (the `jsonld` library functions, `util.inspect`,
`path.resolve`, the actual network/file fetch of `jsonld-request`) are
modelled as abstract function parameters of the embedded commands; the
CLI's own logic (option translation, allow-list policy, base resolution,
error reporting, output formatting) is translated definition by
definition from `bin/jsonld.js`.

JavaScript strings: the file only lowercases, trims and comma-splits
ASCII strings, so `toLowerCase`, `trim` and `split(',')` are modelled by
executable char-list functions (`jsToLower`, `jsTrim`, `jsSplitComma`)
that agree with JavaScript on the ASCII inputs involved.
-/

/-- A JavaScript value as stored on a commander options object:
`undefined` for options that were not given, else a boolean, number or
string. -/
inductive JSVal : Type where
  | undefined : JSVal
  | bool : Bool → JSVal
  | num : Nat → JSVal
  | str : String → JSVal
deriving DecidableEq, Repr

/-- JavaScript truthiness of a `JSVal` (`undefined`, `false`, `0` and
`""` are falsy). -/
def JSVal.truthy : JSVal → Bool
  | .undefined => false
  | .bool b => b
  | .num n => n != 0
  | .str s => s != ""

/-- Extract the string payload of a `JSVal`, if it is a string. -/
def JSVal.toStr : JSVal → Option String
  | .str s => some s
  | _ => none

/-- JavaScript `x || d` for an optional string `x`: the default is used
when the option is absent or its value is the (falsy) empty string.
Embeds `input = input || '-'` and `cmd.format || 'json'`. -/
def jsOrStr : Option String → String → String
  | some s, d => if s = "" then d else s
  | none, d => d

/-- JavaScript truthiness of an optional string option value. -/
def truthyOptStr : Option String → Bool
  | some s => s != ""
  | none => false

/-- Helper for `jsSplitComma`: walk the characters, cutting at each
comma; `acc` holds the current field reversed. -/
def jsSplitCommaAux : List Char → List Char → List String
  | [], acc => [String.mk acc.reverse]
  | c :: cs, acc =>
    if c = ',' then String.mk acc.reverse :: jsSplitCommaAux cs []
    else jsSplitCommaAux cs (c :: acc)

/-- JavaScript `s.split(',')`: cut at every comma, `"".split(',')` is
`[""]`.  Embeds `command.allow.split(',')`. -/
def jsSplitComma (s : String) : List String := jsSplitCommaAux s.data []

/-- ASCII lowercasing of one character, as JavaScript `toLowerCase`
acts on ASCII. -/
def jsLowerChar (c : Char) : Char :=
  if 'A' ≤ c ∧ c ≤ 'Z' then Char.ofNat (c.toNat + 32) else c

/-- JavaScript `s.toLowerCase()` restricted to ASCII strings (the only
inputs the CLI lowercases are format names and boolean words). -/
def jsToLower (s : String) : String := String.mk (s.data.map jsLowerChar)

/-- ASCII whitespace, as recognised by JavaScript `trim`. -/
def jsIsWS (c : Char) : Bool :=
  c = ' ' || c = '\t' || c = '\n' || c = '\r' || c = '\x0b' || c = '\x0c'

/-- JavaScript `s.trim()`: drop leading and trailing whitespace.
Embeds `data.trim()` in `_output`. -/
def jsTrim (s : String) : String :=
  String.mk (((s.data.dropWhile jsIsWS).reverse.dropWhile jsIsWS).reverse)

/-- `const ALLOW_ALL = ['stdin', 'file', 'http', 'https'];` -/
def ALLOW_ALL : List String := ["stdin", "file", "http", "https"]

/-- `const ALLOW_DEFAULT = ['http', 'https'];` -/
def ALLOW_DEFAULT : List String := ["http", "https"]

/-- `const ALLOW_NONE = [];` -/
def ALLOW_NONE : List String := []

/-- The option values produced by commander for the common options that
`_jsonLdCommand` declares on every subcommand:
`-i / --indent` (default 2), `-N / --no-newline` (so `newline` defaults to
`true`), `-k / --insecure`, `-a / --allow <list>`, `-t / --type <type>`,
`-B / --auto-base`, `-b / --base <base>`, `-l / --lint`, `-s / --safe`.
`none` models an absent (undefined) string option. -/
structure Cmd where
  indent : Nat := 2
  newline : Bool := true
  insecure : Bool := false
  allow : Option String := none
  type : Option String := none
  autoBase : Bool := false
  base : Option String := none
  lint : Bool := false
  safe : Bool := false
deriving DecidableEq, Repr

/-- A JavaScript property read on the commander options object, for the
common options.  Commander names the attribute of each option by
camel-casing its long flag — the code itself relies on this by reading
`cmd.nQuads` for `--n-quads`, `cmd.compactArrays` for
`--no-compact-arrays` and `cmd.omitDefault` for `--omit-default` — so
`-B, --auto-base` produces the key `"autoBase"`.  Reading any key that
no declared option produces (in particular `"sourceBase"`) yields
`undefined`. -/
def Cmd.get (c : Cmd) : String → JSVal
  | "indent" => .num c.indent
  | "newline" => .bool c.newline
  | "insecure" => .bool c.insecure
  | "allow" => (match c.allow with | some s => .str s | none => .undefined)
  | "type" => (match c.type with | some s => .str s | none => .undefined)
  | "autoBase" => .bool c.autoBase
  | "base" => (match c.base with | some s => .str s | none => .undefined)
  | "lint" => .bool c.lint
  | "safe" => .bool c.safe
  | _ => .undefined

/-- JavaScript `url.indexOf(p) === 0`: the characters of `p` start the
characters of `url`. -/
def jsStartsWith (p s : String) : Bool := p.data.isPrefixOf s.data

/-- `_isHTTP(url)` from the source. -/
def _isHTTP (url : String) : Bool :=
  jsStartsWith "http://" url || jsStartsWith "https://" url

/-- `_getSourceBase(command, input)`: `'stdin://'` for stdin input, the
input itself when it looks like an HTTP(S) URL, and a `file://` URL of
the input path resolved against the current working directory
otherwise.  `resolve` abstracts `path.resolve(process.cwd(), input)`. -/
def _getSourceBase (resolve : String → String) (_c : Cmd) (input : String) : String :=
  if input = "-" then "stdin://"
  else if _isHTTP input then input
  else "file://" ++ resolve input

/-- `_getBase(command, input)`: the explicit `-b / --base` value when
truthy; otherwise the source base when `command.sourceBase` is truthy
(note: the read is of the key `"sourceBase"`, see `Cmd.get`); otherwise
`null` (modelled as `none`). -/
def _getBase (resolve : String → String) (c : Cmd) (input : String) : Option String :=
  if (c.get "base").truthy then (c.get "base").toStr
  else if (c.get "sourceBase").truthy then some (_getSourceBase resolve c input)
  else none

/-- The request options built by `_requestOptions(command, input)`:
an insecure TLS agent when `-k` was given, the input data type when
`-t` was given, and the resolved base. -/
structure RequestOptions where
  agentInsecure : Bool := false
  dataType : Option String := none
  base : Option String := none
deriving DecidableEq, Repr

/-- `_requestOptions(command, input)` from the source. -/
def _requestOptions (resolve : String → String) (c : Cmd) (input : String) :
    RequestOptions :=
  { agentInsecure := c.insecure
    dataType := if truthyOptStr c.type then c.type else none
    base := _getBase resolve c input }

/-- The data the `documentLoader` closure built by `_jsonLdOptions`
captures: the command (consulted per request by `_requestOptions`) and
the `allow` value of the options object it loads through
`_jsonldRequest` with. -/
structure DocumentLoader where
  cmd : Cmd
  allow : Option (List String)
deriving DecidableEq, Repr

/-- The jsonld options object built by `_jsonLdOptions` — only the
fields that function itself sets.  `none` models an absent field. -/
structure JsonLdOptions where
  allow : Option (List String) := none
  access : Option (List String) := none
  eventHandler : Bool := false
  safe : Option Bool := none
  base : Option String := none
  documentLoader : Option DocumentLoader := none
deriving DecidableEq, Repr

/-- The first `if(command.allow)` block of `_jsonLdOptions`, as the
pair `(options.allow, options.access)` it leaves behind: when the
`-a / --allow` value is truthy (given and non-empty) it is split on
commas, `all` forces `ALLOW_ALL`, otherwise `none` forces `ALLOW_NONE`,
otherwise the split tokens stand; `options.access` stays unset.  When
the value is absent (or empty, hence falsy) the code instead sets
`options.access = ALLOW_DEFAULT` and `options.allow` stays unset. -/
def _allowOpts (c : Cmd) : Option (List String) × Option (List String) :=
  match c.allow with
  | some s =>
    if s = "" then (none, some ALLOW_DEFAULT)
    else
      let parts := jsSplitComma s
      (some (if parts.contains "all" then ALLOW_ALL
             else if parts.contains "none" then ALLOW_NONE
             else parts), none)
  | none => (none, some ALLOW_DEFAULT)

/-- `_jsonLdOptions(command, input)` from the source, field by field:
the allow/access pair from the `if(command.allow)` block
(`_allowOpts`); `options.eventHandler = _warningHandler` exactly under
`-l` (modelled as the presence bit `eventHandler`);
`options.safe = true` exactly under `-s`; `options.base =
_getBase(command, input)`; and the `documentLoader` closure, which
captures the command and reads `options.allow` on every request. -/
def _jsonLdOptions (resolve : String → String) (c : Cmd) (input : String) :
    JsonLdOptions :=
  { allow := (_allowOpts c).1
    access := (_allowOpts c).2
    eventHandler := c.lint
    safe := if c.safe then some true else none
    base := _getBase resolve c input
    documentLoader := some { cmd := c, allow := (_allowOpts c).1 } }

/-- The module-level `_primary` flag threaded through `_jsonldRequest`:
`let _primary = true;` at module load. -/
structure ReqState where
  primary : Bool
deriving DecidableEq, Repr

/-- One request as issued to the external `jsonldRequest` function: the
spread request options plus the `allow` list `_jsonldRequest` adds. -/
structure IssuedRequest where
  reqOptions : RequestOptions := {}
  allow : Option (List String) := none
deriving DecidableEq, Repr

/-- `_jsonldRequest(url, reqOptions, options)` from the source: copies
the request options, overrides `allow` with `ALLOW_ALL` while
`_primary` is still set and with `options.allow` afterwards, and clears
`_primary`.  Returns the issued request together with the new state. -/
def _jsonldRequest (st : ReqState) (reqOpts : RequestOptions)
    (optionsAllow : Option (List String)) : IssuedRequest × ReqState :=
  ({ reqOptions := reqOpts
     allow := if st.primary then some ALLOW_ALL else optionsAllow },
   { primary := false })

/-- Run a sequence of requests through `_jsonldRequest`, threading the
`_primary` state, and collect the requests as issued to the external
library. -/
def runRequests (optionsAllow : Option (List String)) :
    List RequestOptions → ReqState → List IssuedRequest
  | [], _ => []
  | r :: rs, st =>
    let p := _jsonldRequest st r optionsAllow
    p.1 :: runRequests optionsAllow rs p.2

/-- The argument `boolify` receives: commander hands it the raw option
string, and the option default is already a boolean. -/
inductive BoolifyArg : Type where
  | bool : Bool → BoolifyArg
  | str : String → BoolifyArg
deriving DecidableEq, Repr

/-- `boolify(value)` from the source: booleans pass through; a
non-empty string is lowercased and switched over the ten recognised
words; everything else throws `Invalid boolean:` plus the value. -/
def boolify : BoolifyArg → Except String Bool
  | .bool b => .ok b
  | .str v =>
    if v = "" then .error ("Invalid boolean:" ++ v)
    else
      let lv := jsToLower v
      if lv = "true" ∨ lv = "t" ∨ lv = "1" ∨ lv = "yes" ∨ lv = "y" then .ok true
      else if lv = "false" ∨ lv = "f" ∨ lv = "0" ∨ lv = "no" ∨ lv = "n" then
        .ok false
      else .error ("Invalid boolean:" ++ v)

/-- The data handed to `_output`: a JSON-serialisable object (of
abstract type, since its shape belongs to the library) or a string
(e.g. N-Quads output). -/
inductive OutData (α : Type) : Type where
  | obj : α → OutData α
  | str : String → OutData α

/-- `_output(data, cmd)` from the source, as the full string written to
stdout: `JSON.stringify(data, null, cmd.indent)` for objects (with the
serialiser abstracted as `stringify`), `data.trim()` for strings, plus
a trailing newline when `cmd.newline` is set. -/
def _output {α : Type} (stringify : α → Nat → String) (d : OutData α)
    (c : Cmd) : String :=
  (match d with
   | .obj j => stringify j c.indent
   | .str s => jsTrim s) ++ (if c.newline then "\n" else "")

/-- One reported error object: its `stack` (absent for stackless
values, in which case `toString` is printed), its `toString` rendering,
and its own enumerable properties other than `cause` (as destructured
by `const {cause, ...options} = err`). -/
structure ErrFrame where
  stack : Option String
  str : String
  props : List (String × String)
deriving DecidableEq, Repr

/-- An error value with its `cause` chain: either no (truthy) `cause`,
or a cause error beneath it. -/
inductive ErrVal : Type where
  | base : ErrFrame → ErrVal
  | cause : ErrFrame → ErrVal → ErrVal
deriving DecidableEq, Repr

/-- The lines `_error` prints for one error object before recursing:
the stack if present, otherwise the `toString` form; then, when the
remaining own properties are non-empty, the label plus their
`inspect` rendering (`inspect` abstracts `util.inspect`). -/
def frameLines (inspect : List (String × String) → String) (msg : String)
    (f : ErrFrame) : List String :=
  (match f.stack with
   | some s => [s]
   | none => [f.str]) ++
  (if f.props = [] then [] else [msg ++ " " ++ inspect f.props])

/-- `_error(err, msg)` from the source, as the list of `console.log`
lines it writes to stdout: report the error itself, then recurse on its
`cause` with the label `Error Cause:`. -/
def _error (inspect : List (String × String) → String) :
    String → ErrVal → List String
  | msg, .base f => frameLines inspect msg f
  | msg, .cause f c => frameLines inspect msg f ++ _error inspect "Error Cause:" c

/-- The cause chain of an error: the error itself followed by the
errors reachable through `cause`. -/
def causeChain : ErrVal → List ErrFrame
  | .base f => [f]
  | .cause f c => f :: causeChain c

/-- The report the claim describes, stated non-recursively over the
cause chain: the first error of the chain reported under the label
`m`, every further one under `Error Cause:`. -/
def specReportWith (inspect : List (String × String) → String) (m : String)
    (e : ErrVal) : List String :=
  match causeChain e with
  | [] => []
  | f :: rest => frameLines inspect m f ++
      rest.flatMap (frameLines inspect "Error Cause:")

/-- The report the claim describes: the error itself under `Error:`,
then each error of its cause chain in turn under `Error Cause:`. -/
def specReport (inspect : List (String × String) → String) (e : ErrVal) :
    List String :=
  specReportWith inspect "Error:" e

/-- The top level `program.parseAsync(process.argv).catch(e => _error(e))`:
a run that raises no error writes its output and the process exits 0,
and a run that raises an error writes the `_error` report and the
process exits 1 (`process.exit(1)` inside `_error`). -/
def runProgram (inspect : List (String × String) → String) :
    Except ErrVal (List String) → List String × Nat
  | .ok outLines => (outLines, 0)
  | .error e => (_error inspect "Error:" e, 1)

/-- The exit code of a command action under the top-level catch: 1 when
the action threw, 0 otherwise. -/
def exitCodeOf {α : Type} : Except String α → Nat
  | .ok _ => 0
  | .error _ => 1

/-- The options of the `compact` subcommand beyond the common ones:
`-c / --context` (absent by default), `-A / --no-compact-arrays` (so
`compactArrays` defaults to `true`) and `-g / --graph`. -/
structure CompactCmd extends Cmd where
  context : Option String := none
  compactArrays : Bool := true
  graph : Bool := false
deriving DecidableEq, Repr

/-- The options `jsonld.compact` consults, per its API: `compactArrays`,
`graph`, `base`, `safe` (absent is falsy, hence `Bool` here) and the
`documentLoader`.  The external library itself is abstracted as a
function of the input, the context, and this record. -/
structure CompactLibOptions where
  compactArrays : Bool
  graph : Bool
  base : Option String
  safe : Bool
  documentLoader : Option DocumentLoader
deriving DecidableEq, Repr

/-- The `compact` action from the source: default the input to `-`,
throw `ERROR: Context not specified, use -c / --context` when
`cmd.context` is falsy, otherwise build the options through
`_jsonLdOptions`, add `compactArrays` and `graph`, and call the
library.  The result is the document `jsonld.compact` returns (which
the action then hands to `_output`). -/
def compactCommand {α : Type} (jsonldCompact : String → String → CompactLibOptions → α)
    (resolve : String → String) (c : CompactCmd) (input0 : Option String) :
    Except String α :=
  let input := jsOrStr input0 "-"
  if truthyOptStr c.context then
    match c.context with
    | some ctx =>
      let options := _jsonLdOptions resolve c.toCmd input
      .ok (jsonldCompact input ctx
        { compactArrays := c.compactArrays
          graph := c.graph
          base := options.base
          safe := options.safe.getD false
          documentLoader := options.documentLoader })
    | none => .error "ERROR: Context not specified, use -c/--context"
  else .error "ERROR: Context not specified, use -c/--context"

/-- Modelled from the spec: invoking the underlying library's
`jsonld.compact(input, context, options)` directly with equivalent
options — `compactArrays` from `--no-compact-arrays`, `graph` from
`--graph`, the resolved base IRI, safe mode from `-s`, and the same
document loader the CLI builds. -/
def compactDirect {α : Type} (jsonldCompact : String → String → CompactLibOptions → α)
    (resolve : String → String) (c : CompactCmd) (input ctx : String) : α :=
  jsonldCompact input ctx
    { compactArrays := c.compactArrays
      graph := c.graph
      base := _getBase resolve c.toCmd input
      safe := c.toCmd.safe
      documentLoader :=
        some { cmd := c.toCmd
               allow := (_jsonLdOptions resolve c.toCmd input).allow } }

/-- The options of the `frame` subcommand beyond the common ones:
`-f / --frame` plus the boolified `--embed` (default `true`),
`--explicit` (default `false`) and `--omit-default` (default
`false`). -/
structure FrameCmd extends Cmd where
  frame : Option String := none
  embed : Bool := true
  explicit : Bool := false
  omitDefault : Bool := false
deriving DecidableEq, Repr

/-- The options `jsonld.frame` consults, analogous to
`CompactLibOptions`. -/
structure FrameLibOptions where
  embed : Bool
  explicit : Bool
  omitDefault : Bool
  base : Option String
  safe : Bool
  documentLoader : Option DocumentLoader
deriving DecidableEq, Repr

/-- The `frame` action from the source: default the input to `-`,
throw `ERROR: Frame not specified, use -f / --frame` when `cmd.frame` is
falsy, otherwise build the options and call the library. -/
def frameCommand {α : Type} (jsonldFrame : String → String → FrameLibOptions → α)
    (resolve : String → String) (c : FrameCmd) (input0 : Option String) :
    Except String α :=
  let input := jsOrStr input0 "-"
  if truthyOptStr c.frame then
    match c.frame with
    | some f =>
      let options := _jsonLdOptions resolve c.toCmd input
      .ok (jsonldFrame input f
        { embed := c.embed
          explicit := c.explicit
          omitDefault := c.omitDefault
          base := options.base
          safe := options.safe.getD false
          documentLoader := options.documentLoader })
    | none => .error "ERROR: Frame not specified, use -f/--frame"
  else .error "ERROR: Frame not specified, use -f/--frame"

/-- The options of the `format` subcommand beyond the common ones:
`-c / --context`, `-f / --format`, `-q / --n-quads` and `-j / --json`. -/
structure FormatCmd extends Cmd where
  context : Option String := none
  format : Option String := none
  nQuads : Bool := false
  json : Bool := false
deriving DecidableEq, Repr

/-- The options `jsonld.toRDF` consults when called from the `format`
action: the (normalised) output format, the base, safe mode, the
expand context from `-c` and the document loader. -/
structure ToRdfLibOptions where
  format : String
  base : Option String
  safe : Bool
  expandContext : Option String
  documentLoader : Option DocumentLoader
deriving DecidableEq, Repr

/-- The output format the `format` action selects before its switch:
`cmd.format || 'json'`, overridden to `application/n-quads` by `-q` and
then to `application/json` by `-j`. -/
def selectedFormat (c : FormatCmd) : String :=
  let f0 := jsOrStr c.format "json"
  let f1 := if c.nQuads then "application/n-quads" else f0
  if c.json then "application/json" else f1

/-- The N-Quads case labels of the `format` switch. -/
def nquadsAliases : List String :=
  ["nquads", "n-quads", "application/nquads", "application/n-quads"]

/-- The JSON case labels of the `format` switch. -/
def jsonAliases : List String :=
  ["json", "jsonld", "json-ld", "ld+json", "application/json",
   "application/ld+json"]

/-- The `format` action from the source: select the output format,
lowercase it and switch: the N-Quads labels normalise the format to
`application/n-quads` and convert through `jsonld.toRDF`; the JSON
labels fetch the input document (its re-serialisation as JSON then
happens in `_output`); anything else throws `ERROR: Unknown format:`
plus the format.  `toRDF` abstracts `jsonld.toRDF` and `fetch` the
`_jsonldRequest` data of the input. -/
def formatCommand {α β : Type} (toRDF : String → ToRdfLibOptions → α)
    (fetch : String → β) (resolve : String → String) (c : FormatCmd)
    (input0 : Option String) : Except String (Sum α β) :=
  let input := jsOrStr input0 "-"
  let options := _jsonLdOptions resolve c.toCmd input
  let fmt := selectedFormat c
  let low := jsToLower fmt
  if nquadsAliases.contains low then
    .ok (Sum.inl (toRDF input
      { format := "application/n-quads"
        base := options.base
        safe := options.safe.getD false
        expandContext := if truthyOptStr c.context then c.context else none
        documentLoader := options.documentLoader }))
  else if jsonAliases.contains low then
    .ok (Sum.inr (fetch input))
  else .error ("ERROR: Unknown format: " ++ fmt)

/-- The allow-list computation as the claim states it, for a value `v`
given to `-a / --allow`: split on commas; `all` (even together with
`none`) yields the full list; otherwise `none` yields the empty list;
otherwise the tokens verbatim. -/
def claimAllowList (v : String) : List String :=
  let toks := jsSplitComma v
  if toks.contains "all" then ["stdin", "file", "http", "https"]
  else if toks.contains "none" then []
  else toks

lemma runRequests_nonprimary (oa : Option (List String)) :
    ∀ l : List RequestOptions,
      runRequests oa l { primary := false } =
        l.map (fun q => { reqOptions := q, allow := oa }) := by
  intro l
  induction l with
  | nil => rfl
  | cons x xs ih => simp [runRequests, _jsonldRequest, ih]

/-- C2.  Inside one invocation, the first request that goes through the
`_jsonldRequest` wrapper is issued to the external request library with
the unconditional full allow-list `ALLOW_ALL = [stdin, file, http,
https]`, whatever the command's options are; every subsequent request
of the same invocation is issued with the `allow` value of the options
object `_jsonLdOptions` derived from the command's options — so after
the first request the unconditional full list never recurs (it can
only reappear as the options-derived value itself, e.g. under
`-a all`). -/
theorem C2_primary_gets_allow_all_secondaries_get_options_allow
    (resolve : String → String) (c : Cmd) (input : String)
    (r : RequestOptions) (rs : List RequestOptions) :
    runRequests ((_jsonLdOptions resolve c input).allow) (r :: rs)
        { primary := true } =
      { reqOptions := r, allow := some ALLOW_ALL } ::
        rs.map (fun q =>
          { reqOptions := q
            allow := (_jsonLdOptions resolve c input).allow }) := by
  simp [runRequests, _jsonldRequest, runRequests_nonprimary]

/-- C1 (code bug).  With no `-a / --allow` given, `_jsonLdOptions` sets
`options.access = ALLOW_DEFAULT` — but nothing ever reads `access`: the
request wrapper passes `options.allow`, which is unset.  So every
secondary request is issued with no allow-list at all (`allow:
undefined`), not with the documented `[http, https]` restriction, as
evaluation on an invocation with two requests shows. -/
theorem C1_default_secondary_allow_is_undefined :
    (_jsonLdOptions id ({} : Cmd) "-").access = some ALLOW_DEFAULT ∧
    (_jsonLdOptions id ({} : Cmd) "-").allow = none ∧
    runRequests ((_jsonLdOptions id ({} : Cmd) "-").allow)
        [{}, {}] { primary := true } =
      [{ reqOptions := {}, allow := some ALLOW_ALL },
       { reqOptions := {}, allow := none }] ∧
    (none : Option (List String)) ≠ some ALLOW_DEFAULT := by
  refine ⟨rfl, rfl, rfl, by simp⟩

/-- C8 (code bug).  `_getBase` reads `command.sourceBase`, but the
declared option is `-B, --auto-base`, whose commander attribute is
`autoBase`; the `sourceBase` read therefore always yields `undefined`
and the auto-base branch is unreachable.  With `-B` given, stdin input
and no `-b`, the base is `null` although `_getSourceBase` (and the
option's documentation) would give `stdin://`.  The explicit `-b` path
is unaffected. -/
theorem C8_auto_base_branch_unreachable :
    ({ autoBase := true } : Cmd).autoBase = true ∧
    ({ autoBase := true } : Cmd).get "sourceBase" = JSVal.undefined ∧
    _getBase id ({ autoBase := true } : Cmd) "-" = none ∧
    _getSourceBase id ({ autoBase := true } : Cmd) "-" = "stdin://" ∧
    _getSourceBase id ({ autoBase := true } : Cmd) "doc.jsonld" =
      "file://" ++ id "doc.jsonld" ∧
    _getBase id ({ autoBase := true, base := some "http://b/" } : Cmd)
      "doc.jsonld" = some "http://b/" := by
  refine ⟨rfl, rfl, rfl, rfl, by decide, rfl⟩

/-- C9 (counterexample).  The claim reads every `-a` value as split on
commas, so the empty value would give the allow-list `[""]`; but the
empty string is falsy in `if(command.allow)`, so the code treats
`-a ""` like an absent `-a` and leaves `options.allow` unset. -/
theorem C9_empty_allow_value_counterexample :
    claimAllowList "" = [""] ∧
    (_jsonLdOptions id ({ allow := some "" } : Cmd) "-").allow = none ∧
    (_jsonLdOptions id ({ allow := some "" } : Cmd) "-").access =
      some ALLOW_DEFAULT := by
  refine ⟨by decide, rfl, rfl⟩

/-- C9 (amended).  For every non-empty value given to `-a / --allow`,
the options carry exactly the claim's allow-list: the value split on
commas; `all` among the tokens forces the full list even when `none`
is also present; otherwise `none` forces the empty list; otherwise the
tokens verbatim. -/
theorem C9_allow_list_parsing (resolve : String → String) (c : Cmd)
    (input v : String) (h : c.allow = some v) (hv : v ≠ "") :
    (_jsonLdOptions resolve c input).allow = some (claimAllowList v) := by
  show (_allowOpts c).1 = some (claimAllowList v)
  simp [_allowOpts, h, hv, claimAllowList, ALLOW_ALL, ALLOW_NONE]

/-- Witness for the amended C9 at `-a none,all`: `all` wins even with
`none` present. -/
theorem C9_allow_list_parsing_witness :
    ({ allow := some "none,all" } : Cmd).allow = some "none,all" ∧
    ("none,all" : String) ≠ "" ∧
    (_jsonLdOptions id ({ allow := some "none,all" } : Cmd) "-").allow =
      some (claimAllowList "none,all") ∧
    claimAllowList "none,all" = ["stdin", "file", "http", "https"] :=
  ⟨rfl, by decide,
   C9_allow_list_parsing id { allow := some "none,all" } "-" "none,all" rfl
     (by decide),
   by decide⟩

/-- C3.  For every context and input, the `compact` command returns
exactly what a direct invocation of the library's
`jsonld.compact(input, context, options)` returns with the equivalent
options: `compactArrays` from `-A / --no-compact-arrays`, `graph` from
`-g / --graph`, the resolved base, safe mode from `-s`, and the same
document loader.  The library function is universally quantified, so
the equality holds whatever the library computes. -/
theorem C3_compact_equals_direct_library_call {α : Type}
    (jsonldCompact : String → String → CompactLibOptions → α)
    (resolve : String → String) (c : CompactCmd) (input0 : Option String)
    (ctx : String) (h : c.context = some ctx) (hne : ctx ≠ "") :
    compactCommand jsonldCompact resolve c input0 =
      .ok (compactDirect jsonldCompact resolve c (jsOrStr input0 "-") ctx) := by
  have hsafe : ((_jsonLdOptions resolve c.toCmd (jsOrStr input0 "-")).safe.getD
      false) = c.toCmd.safe := by
    show (if c.toCmd.safe then some true else none).getD false = c.toCmd.safe
    cases c.toCmd.safe <;> rfl
  simp only [compactCommand, compactDirect, h, truthyOptStr]
  rw [if_pos (by simp [hne])]
  rw [← hsafe]
  rfl

/-- Witness for C3 at a concrete command, input and library
function. -/
theorem C3_compact_equals_direct_library_call_witness :
    ({ context := some "ctx.jsonld" } : CompactCmd).context =
      some "ctx.jsonld" ∧
    ("ctx.jsonld" : String) ≠ "" ∧
    compactCommand (fun _ _ o => o.compactArrays) id
        { context := some "ctx.jsonld" } none =
      .ok (compactDirect (fun _ _ o => o.compactArrays) id
        { context := some "ctx.jsonld" } (jsOrStr none "-") "ctx.jsonld") :=
  ⟨rfl, by decide,
   C3_compact_equals_direct_library_call (fun _ _ o => o.compactArrays) id
     { context := some "ctx.jsonld" } none "ctx.jsonld" rfl (by decide)⟩

/-- C4.  `compact` without `-c / --context` and `frame` without
`-f / --frame` throw their descriptive errors before any document
processing — the result is the error for every library function and
every loader behaviour, so neither is ever consulted — and under the
top-level catch the process exit code is 1. -/
theorem C4_missing_required_flags_error {α β : Type}
    (jsonldCompact : String → String → CompactLibOptions → α)
    (jsonldFrame : String → String → FrameLibOptions → β)
    (resolve : String → String) (c : CompactCmd) (fc : FrameCmd)
    (i1 i2 : Option String) (hc : c.context = none) (hf : fc.frame = none) :
    compactCommand jsonldCompact resolve c i1 =
      .error "ERROR: Context not specified, use -c/--context" ∧
    exitCodeOf (compactCommand jsonldCompact resolve c i1) = 1 ∧
    frameCommand jsonldFrame resolve fc i2 =
      .error "ERROR: Frame not specified, use -f/--frame" ∧
    exitCodeOf (frameCommand jsonldFrame resolve fc i2) = 1 := by
  have h1 : compactCommand jsonldCompact resolve c i1 =
      .error "ERROR: Context not specified, use -c/--context" := by
    simp [compactCommand, hc, truthyOptStr]
  have h2 : frameCommand jsonldFrame resolve fc i2 =
      .error "ERROR: Frame not specified, use -f/--frame" := by
    simp [frameCommand, hf, truthyOptStr]
  exact ⟨h1, by rw [h1]; rfl, h2, by rw [h2]; rfl⟩

/-- Witness for C4 at concrete commands and library functions. -/
theorem C4_missing_required_flags_error_witness :
    ({} : CompactCmd).context = none ∧
    ({} : FrameCmd).frame = none ∧
    compactCommand (fun _ _ _ => (0 : Nat)) id ({} : CompactCmd) none =
      .error "ERROR: Context not specified, use -c/--context" ∧
    frameCommand (fun _ _ _ => (0 : Nat)) id ({} : FrameCmd) none =
      .error "ERROR: Frame not specified, use -f/--frame" ∧
    exitCodeOf (frameCommand (fun _ _ _ => (0 : Nat)) id ({} : FrameCmd) none)
      = 1 :=
  ⟨rfl, rfl,
   (C4_missing_required_flags_error (fun _ _ _ => (0 : Nat))
     (fun _ _ _ => (0 : Nat)) id {} {} none none rfl rfl).1,
   (C4_missing_required_flags_error (fun _ _ _ => (0 : Nat))
     (fun _ _ _ => (0 : Nat)) id {} {} none none rfl rfl).2.2.1,
   (C4_missing_required_flags_error (fun _ _ _ => (0 : Nat))
     (fun _ _ _ => (0 : Nat)) id {} {} none none rfl rfl).2.2.2⟩

lemma _error_eq_specReportWith (inspect : List (String × String) → String) :
    ∀ (e : ErrVal) (m : String),
      _error inspect m e = specReportWith inspect m e := by
  intro e
  induction e with
  | base f =>
    intro m
    simp [_error, specReportWith, causeChain]
  | cause f c ih =>
    intro m
    simp only [_error, specReportWith, causeChain]
    rw [ih "Error Cause:"]
    cases c with
    | base g => simp [specReportWith, causeChain]
    | cause g d => simp [specReportWith, causeChain]

/-- C5.  A run that throws reports the error to standard output — the
stack trace when present, otherwise the error's string form, plus its
own enumerable properties — and then, recursively, every error of the
cause chain under the `Error Cause:` label, after which the process
exits with code 1; the reporting is the single pass `specReport`
describes (each error reported exactly once, no retries); a run that
throws nothing writes its output and exits with code 0. -/
theorem C5_error_reporting_and_exit_codes
    (inspect : List (String × String) → String) (e : ErrVal)
    (outLines : List String) :
    runProgram inspect (.error e) = (specReport inspect e, 1) ∧
    runProgram inspect (.ok outLines) = (outLines, 0) := by
  constructor
  · show (_error inspect "Error:" e, 1) = (specReport inspect e, 1)
    rw [_error_eq_specReportWith inspect e "Error:"]
    rfl
  · rfl

/-- C6.  The `format` command, after the `-q` and `-j` shortcuts and
case-insensitively: an N-Quads alias is normalised to
`application/n-quads` and the result comes from `jsonld.toRDF`; a JSON
alias makes the result the fetched input document (re-serialised as
JSON by `_output`); any other format throws an error whose message
begins `ERROR: Unknown format:`, and the exit code is 1. -/
theorem C6_format_dispatch {α β : Type} (toRDF : String → ToRdfLibOptions → α)
    (fetch : String → β) (resolve : String → String) (c : FormatCmd)
    (input0 : Option String) :
    (nquadsAliases.contains (jsToLower (selectedFormat c)) = true →
      ∃ o : ToRdfLibOptions,
        formatCommand toRDF fetch resolve c input0 =
          .ok (Sum.inl (toRDF (jsOrStr input0 "-") o)) ∧
        o.format = "application/n-quads") ∧
    (jsonAliases.contains (jsToLower (selectedFormat c)) = true →
      formatCommand toRDF fetch resolve c input0 =
        .ok (Sum.inr (fetch (jsOrStr input0 "-")))) ∧
    (nquadsAliases.contains (jsToLower (selectedFormat c)) = false →
      jsonAliases.contains (jsToLower (selectedFormat c)) = false →
      formatCommand toRDF fetch resolve c input0 =
        .error ("ERROR: Unknown format: " ++ selectedFormat c) ∧
      (∃ t, "ERROR: Unknown format: " ++ selectedFormat c =
        "ERROR: Unknown format:" ++ t) ∧
      exitCodeOf (formatCommand toRDF fetch resolve c input0) = 1) := by
  refine ⟨?_, ?_, ?_⟩
  · intro h
    refine ⟨{ format := "application/n-quads"
              base := (_jsonLdOptions resolve c.toCmd (jsOrStr input0 "-")).base
              safe := (_jsonLdOptions resolve c.toCmd
                (jsOrStr input0 "-")).safe.getD false
              expandContext := if truthyOptStr c.context then c.context else none
              documentLoader := (_jsonLdOptions resolve c.toCmd
                (jsOrStr input0 "-")).documentLoader },
            ?_, rfl⟩
    simp only [formatCommand]
    rw [h]
    rfl
  · intro h
    have hmem : jsToLower (selectedFormat c) ∈ jsonAliases := by
      simpa using h
    have hq : nquadsAliases.contains (jsToLower (selectedFormat c)) = false := by
      simp only [jsonAliases, List.mem_cons, List.not_mem_nil, or_false] at hmem
      rcases hmem with h' | h' | h' | h' | h' | h' <;> rw [h'] <;> decide
    simp only [formatCommand]
    rw [hq, h]
    rfl
  · intro h1 h2
    have herr : formatCommand toRDF fetch resolve c input0 =
        .error ("ERROR: Unknown format: " ++ selectedFormat c) := by
      simp only [formatCommand]
      rw [h1, h2]
      rfl
    refine ⟨herr, ⟨" " ++ selectedFormat c, ?_⟩, by rw [herr]; rfl⟩
    rw [← String.append_assoc]
    rfl

/-- Witness for C6 at three concrete commands, one per dispatch case:
`-q`, the default JSON format, and `-f xml`. -/
theorem C6_format_dispatch_witness :
    (nquadsAliases.contains
        (jsToLower (selectedFormat ({ nQuads := true } : FormatCmd))) = true ∧
      ∃ o : ToRdfLibOptions,
        formatCommand (fun _ _ => (0 : Nat)) (fun _ => (0 : Nat)) id
            ({ nQuads := true } : FormatCmd) none = .ok (Sum.inl 0) ∧
        o.format = "application/n-quads") ∧
    (jsonAliases.contains
        (jsToLower (selectedFormat ({} : FormatCmd))) = true ∧
      formatCommand (fun _ _ => (0 : Nat)) (fun _ => (7 : Nat)) id
          ({} : FormatCmd) none = .ok (Sum.inr 7)) ∧
    (nquadsAliases.contains
        (jsToLower (selectedFormat ({ format := some "xml" } : FormatCmd)))
        = false ∧
      formatCommand (fun _ _ => (0 : Nat)) (fun _ => (0 : Nat)) id
          ({ format := some "xml" } : FormatCmd) none =
        .error ("ERROR: Unknown format: " ++
          selectedFormat ({ format := some "xml" } : FormatCmd)) ∧
      exitCodeOf (formatCommand (fun _ _ => (0 : Nat)) (fun _ => (0 : Nat)) id
          ({ format := some "xml" } : FormatCmd) none) = 1) :=
  ⟨⟨by decide,
    (C6_format_dispatch (fun _ _ => (0 : Nat)) (fun _ => (0 : Nat)) id
      { nQuads := true } none).1 (by decide)⟩,
   ⟨by decide,
    (C6_format_dispatch (fun _ _ => (0 : Nat)) (fun _ => (7 : Nat)) id
      {} none).2.1 (by decide)⟩,
   ⟨by decide,
    ((C6_format_dispatch (fun _ _ => (0 : Nat)) (fun _ => (0 : Nat)) id
      { format := some "xml" } none).2.2 (by decide) (by decide)).1,
    ((C6_format_dispatch (fun _ _ => (0 : Nat)) (fun _ => (0 : Nat)) id
      { format := some "xml" } none).2.2 (by decide) (by decide)).2.2⟩⟩

/-- C7.  `_output` writes an object result as
`JSON.stringify(data, null, indent)` with the `-i` indent (default 2),
a string result trimmed of leading and trailing whitespace, and
appends exactly one trailing newline unless `-N` cleared `newline`. -/
theorem C7_output_newline_indent {α : Type} (stringify : α → Nat → String)
    (c : Cmd) (j : α) (s : String) :
    (c.newline = true →
      _output stringify (.obj j) c = stringify j c.indent ++ "\n" ∧
      _output stringify (.str s) c = jsTrim s ++ "\n") ∧
    (c.newline = false →
      _output stringify (.obj j) c = stringify j c.indent ∧
      _output stringify (.str s) c = jsTrim s) ∧
    ({} : Cmd).indent = 2 ∧ ({} : Cmd).newline = true := by
  refine ⟨?_, ?_, rfl, rfl⟩ <;> intro h <;>
    exact ⟨by simp [_output, h], by simp [_output, h]⟩

/-- Witness for C7: newline appended by default, suppressed by `-N`,
and the string case trimmed. -/
theorem C7_output_newline_indent_witness :
    ({} : Cmd).newline = true ∧
    _output (fun (_ : Nat) _ => "out") (.obj 0) {} = "out" ++ "\n" ∧
    ({ newline := false } : Cmd).newline = false ∧
    _output (fun (_ : Nat) _ => "out") (.str " tx ") { newline := false } =
      jsTrim " tx " :=
  ⟨rfl,
   ((C7_output_newline_indent (fun _ _ => "out") {} 0 "x").1 rfl).1,
   rfl,
   ((C7_output_newline_indent (fun _ _ => "out") { newline := false } 0
      " tx ").2.1 rfl).2⟩

/-- C10.  `boolify` passes booleans through unchanged and is
case-insensitive and total over exactly ten strings: a string
lowercasing to `true`, `t`, `1`, `yes` or `y` yields `true`, one
lowercasing to `false`, `f`, `0`, `no` or `n` yields `false`, and every
other string — the empty string included — raises the error
`Invalid boolean:` followed by the value. -/
theorem C10_boolify_case_insensitive_total (s : String) (b : Bool) :
    boolify (.bool b) = .ok b ∧
    (boolify (.str s) = .ok true ↔
      jsToLower s ∈ (["true", "t", "1", "yes", "y"] : List String)) ∧
    (boolify (.str s) = .ok false ↔
      jsToLower s ∈ (["false", "f", "0", "no", "n"] : List String)) ∧
    (jsToLower s ∉ (["true", "t", "1", "yes", "y",
                     "false", "f", "0", "no", "n"] : List String) →
      boolify (.str s) = .error ("Invalid boolean:" ++ s)) := by
  by_cases hs : s = ""
  · subst hs
    exact ⟨rfl,
      Iff.intro (fun h => absurd h (by simp [boolify]))
        (fun h => absurd h (by decide)),
      Iff.intro (fun h => absurd h (by simp [boolify]))
        (fun h => absurd h (by decide)),
      fun _ => rfl⟩
  · have hb : boolify (.str s) =
        (if jsToLower s = "true" ∨ jsToLower s = "t" ∨ jsToLower s = "1" ∨
            jsToLower s = "yes" ∨ jsToLower s = "y" then .ok true
         else if jsToLower s = "false" ∨ jsToLower s = "f" ∨
            jsToLower s = "0" ∨ jsToLower s = "no" ∨ jsToLower s = "n" then
           .ok false
         else .error ("Invalid boolean:" ++ s)) := by
      simp [boolify, hs]
    by_cases hA : jsToLower s = "true" ∨ jsToLower s = "t" ∨
        jsToLower s = "1" ∨ jsToLower s = "yes" ∨ jsToLower s = "y"
    · have hval : boolify (.str s) = .ok true := by rw [hb, if_pos hA]
      have hmemT : jsToLower s ∈ (["true", "t", "1", "yes", "y"] :
          List String) := by
        simp only [List.mem_cons, List.not_mem_nil, or_false]; tauto
      have hmemF : jsToLower s ∉ (["false", "f", "0", "no", "n"] :
          List String) := by
        rcases hA with h | h | h | h | h <;> rw [h] <;> decide
      refine ⟨rfl, by simp [hval, hmemT], by simp [hval, hmemF], ?_⟩
      intro hnot
      exact absurd (show jsToLower s ∈ (["true", "t", "1", "yes", "y",
          "false", "f", "0", "no", "n"] : List String) by
        simp only [List.mem_cons, List.not_mem_nil, or_false]; tauto) hnot
    · by_cases hB : jsToLower s = "false" ∨ jsToLower s = "f" ∨
          jsToLower s = "0" ∨ jsToLower s = "no" ∨ jsToLower s = "n"
      · have hval : boolify (.str s) = .ok false := by
          rw [hb, if_neg hA, if_pos hB]
        have hmemF : jsToLower s ∈ (["false", "f", "0", "no", "n"] :
            List String) := by
          simp only [List.mem_cons, List.not_mem_nil, or_false]; tauto
        have hmemT : jsToLower s ∉ (["true", "t", "1", "yes", "y"] :
            List String) := by
          rcases hB with h | h | h | h | h <;> rw [h] <;> decide
        refine ⟨rfl, by simp [hval, hmemT], by simp [hval, hmemF], ?_⟩
        intro hnot
        exact absurd (show jsToLower s ∈ (["true", "t", "1", "yes", "y",
            "false", "f", "0", "no", "n"] : List String) by
          simp only [List.mem_cons, List.not_mem_nil, or_false]; tauto) hnot
      · have hval : boolify (.str s) = .error ("Invalid boolean:" ++ s) := by
          rw [hb, if_neg hA, if_neg hB]
        have hmT : jsToLower s ∉ (["true", "t", "1", "yes", "y"] :
            List String) := by
          simp only [List.mem_cons, List.not_mem_nil, or_false]; exact hA
        have hmF : jsToLower s ∉ (["false", "f", "0", "no", "n"] :
            List String) := by
          simp only [List.mem_cons, List.not_mem_nil, or_false]; exact hB
        exact ⟨rfl, by simp [hval, hmT], by simp [hval, hmF], fun _ => hval⟩

/-- Witness for C10: mixed case accepted, an unknown word rejected with
the `Invalid boolean:` message. -/
theorem C10_boolify_case_insensitive_total_witness :
    boolify (.str "YeS") = .ok true ∧
    (jsToLower "maybe" ∉ (["true", "t", "1", "yes", "y",
        "false", "f", "0", "no", "n"] : List String)) ∧
    boolify (.str "maybe") = .error ("Invalid boolean:" ++ "maybe") :=
  ⟨(C10_boolify_case_insensitive_total "YeS" true).2.1.mpr (by decide),
   by decide,
   (C10_boolify_case_insensitive_total "maybe" true).2.2.2 (by decide)⟩
